import Mathlib

/-!
A verification development for the A2A protocol client
(`appworld_a2a_runner/a2a_client.py`): a shallow embedding of the client's
endpoint resolution, JSON-RPC transport, response interpretation and polling
loop, together with theorems settling the specification's claims about them.

JSON values are modelled by the inductive `Json`; Python `dict.get` becomes
`Json.get?` (returning `none` when the key is absent or the receiver is not an
object), Python truthiness becomes `Json.truthy`, and Python `str()` becomes
`pyStr` (exact on scalars; containers are rendered structurally with single
quotes and no inner escaping, which no claim exercises).  String manipulation
is carried out on the character list underlying a `String` so that every
definition evaluates by kernel reduction.
-/

/-- A JSON value, the shape of every payload the client handles. -/
inductive Json where
  | null
  | bool (b : Bool)
  | num (n : Int)
  | str (s : String)
  | arr (elems : List Json)
  | obj (fields : List (String × Json))
  deriving Repr

/-- First-match lookup in an object's field list (Python dict lookup; keys of
a decoded JSON object are unique, so first-match agrees with dict semantics). -/
def lookupField : List (String × Json) → String → Option Json
  | [], _ => none
  | (k, v) :: rest, key => if k == key then some v else lookupField rest key

/-- `d.get(key)` on a Python dict, `none` when the key is absent.  On a
non-object value it returns `none`; the Python code only applies `.get` to
decoded objects, and every membership test (`key in d`) it performs is
likewise on objects. -/
def Json.get? (j : Json) (key : String) : Option Json :=
  match j with
  | Json.obj fields => lookupField fields key
  | _ => none

/-- Python truthiness of a decoded JSON value. -/
def Json.truthy : Json → Bool
  | Json.null => false
  | Json.bool b => b
  | Json.num n => n != 0
  | Json.str s => s != ""
  | Json.arr elems => !elems.isEmpty
  | Json.obj fields => !fields.isEmpty

mutual

/-- Python `repr` of a decoded JSON value: exact on `None`, booleans and
integers; strings and containers are rendered with single quotes and no inner
escaping (no claim stringifies a container or a quote-bearing string). -/
def pyRepr : Json → String
  | Json.null => "None"
  | Json.bool true => "True"
  | Json.bool false => "False"
  | Json.num n => toString n
  | Json.str s => "\x27" ++ s ++ "\x27"
  | Json.arr elems => "[" ++ String.intercalate ", " (pyReprList elems) ++ "]"
  | Json.obj fields => "\x7b" ++ String.intercalate ", " (pyReprFields fields) ++ "\x7d"

/-- `pyRepr` over the elements of an array. -/
def pyReprList : List Json → List String
  | [] => []
  | x :: xs => pyRepr x :: pyReprList xs

/-- `pyRepr` over the fields of an object. -/
def pyReprFields : List (String × Json) → List String
  | [] => []
  | (k, v) :: xs => ("\x27" ++ k ++ "\x27: " ++ pyRepr v) :: pyReprFields xs

end

/-- Python `str()` of a decoded JSON value: a string is returned as itself,
anything else as its `repr`. -/
def pyStr : Json → String
  | Json.str s => s
  | j => pyRepr j

/-! ## String helpers (Python semantics, on the underlying character list) -/

/-- Python `url.rstrip("/")`: drop every trailing `/`. -/
def rstripSlash (s : String) : String :=
  String.mk ((s.data.reverse.dropWhile (fun c => c == '/')).reverse)

/-- Python `str.strip()`: drop leading and trailing whitespace. -/
def pyStrip (s : String) : String :=
  String.mk (((s.data.dropWhile Char.isWhitespace).reverse.dropWhile Char.isWhitespace).reverse)

/-- Whether a string begins with the character `/`. -/
def startsWithSlash (s : String) : Bool :=
  match s.data with
  | c :: _ => c == '/'
  | [] => false

/-- A character allowed in a URL scheme (`urllib.parse`'s `scheme_chars`). -/
def schemeChar (c : Char) : Bool :=
  c.isAlpha || c.isDigit || c == '+' || c == '-' || c == '.'

/-- Split off `scheme:` as `urllib.parse.urlsplit` does: when a colon occurs
and the text before the first colon is nonempty and made of scheme
characters, drop it together with the colon. -/
def dropScheme (s : List Char) : List Char :=
  let before := s.takeWhile (fun c => c ≠ ':')
  if before.length < s.length ∧ before ≠ [] ∧ before.all schemeChar then
    s.drop (before.length + 1)
  else s

/-- Split off `//netloc` as `urllib.parse.urlsplit` does: after a leading
`//`, the authority extends to the next `/`, `?` or `#`. -/
def dropNetloc : List Char → List Char
  | '/' :: '/' :: rest => rest.dropWhile (fun c => c ≠ '/' ∧ c ≠ '?' ∧ c ≠ '#')
  | s => s

/-- The `path` component `urllib.parse.urlparse(url).path` returns: what is
left after scheme and authority, cut at the first `?` or `#`. -/
def urlparsePath (url : String) : String :=
  String.mk (((dropNetloc (dropScheme url.data)).takeWhile (fun c => c ≠ '#')).takeWhile
    (fun c => c ≠ '?'))

/-! ## Endpoint resolver (`_normalize_endpoint_path`, `_build_rpc_url`,
`_discover_rpc_url`) -/

/-- The last step of `_normalize_endpoint_path`: prepend `/` unless already
present. -/
def ensureLeadingSlash (q : String) : String :=
  if startsWithSlash q then q else "/" ++ q

/-- `_normalize_endpoint_path`: `(config.endpoint_path or "/").strip()`,
then default `/` when empty, then a leading slash enforced. -/
def normalizeEndpointPath (endpointPath : String) : String :=
  let p := pyStrip (if endpointPath == "" then "/" else endpointPath)
  ensureLeadingSlash (if p == "" then "/" else p)

/-- `_build_rpc_url`: `base_url.rstrip("/") + self._normalize_endpoint_path()`. -/
def buildRpcUrl (baseUrl : String) (endpointPath : String) : String :=
  rstripSlash baseUrl ++ normalizeEndpointPath endpointPath

/-- `_discover_rpc_url`, with the network fetch abstracted: `fetched` is
`none` when `_get_agent_card` raised (any network, HTTP-status or parse
failure), otherwise the decoded card.  The `try`/`except` around the body
makes every failure fall back to `_build_rpc_url(base_url)`; a truthy
non-string `url` field makes `urlparse` raise in Python and lands in that
same fallback, and a falsy one fails the `if service_url:` test and builds
from `base_url` as well, so both collapse to the catch-all arm. -/
def discoverRpcUrl (fetched : Option Json) (baseUrl : String) (endpointPath : String) : String :=
  match fetched with
  | none => buildRpcUrl baseUrl endpointPath
  | some card =>
    match card.get? "url" with
    | some (Json.str serviceUrl) =>
      if serviceUrl == "" then buildRpcUrl baseUrl endpointPath
      else if urlparsePath serviceUrl != "" && urlparsePath serviceUrl != "/" then
        rstripSlash serviceUrl
      else buildRpcUrl serviceUrl endpointPath
    | some _ => buildRpcUrl baseUrl endpointPath
    | none => buildRpcUrl baseUrl endpointPath


/-! ## Response interpreter (`_extract_text_from_message`,
`_extract_text_from_task`) -/

/-- `isinstance(part, dict) and part.get("kind") == "text"`. -/
def isTextKind (part : Json) : Bool :=
  match part.get? "kind" with
  | some (Json.str k) => k == "text"
  | _ => false

/-- The `text_parts` accumulation loop shared by message and artifact
extraction: for each dict part with `kind == "text"`, keep
`part.get("text", "")` whenever it is truthy. -/
def collectTextParts (parts : List Json) : List Json :=
  parts.filterMap fun part =>
    if isTextKind part then
      let text := (part.get? "text").getD (Json.str "")
      if text.truthy then some text else none
    else none

/-- The values of a list when every one is a JSON string, else `none`. -/
def asStrings : List Json → Option (List String)
  | [] => some []
  | Json.str s :: rest => (asStrings rest).map (fun l => s :: l)
  | _ => none

/-- `"\n".join(text_parts)`: Python joins only strings and raises
`TypeError` when a collected truthy `text` value is not one. -/
def joinTextParts (textParts : List Json) : Except String String :=
  match asStrings textParts with
  | some strs => Except.ok (String.intercalate "\n" strs)
  | none => Except.error "TypeError: sequence item: expected str instance"

/-- `_extract_text_from_message`. -/
def extractTextFromMessage (message : Json) : Except String String :=
  let fromParts : Option (Except String String) :=
    match message.get? "parts" with
    | some (Json.arr parts) =>
      let tps := collectTextParts parts
      if tps.isEmpty then none else some (joinTextParts tps)
    | _ => none
  match fromParts with
  | some r => r
  | none =>
    match message.get? "content" with
    | some c => Except.ok (pyStr c)
    | none => Except.error "Could not extract text from message"

/-- `status.get("state") == s` (a state only matches when it is that string). -/
def jsonStateIs (status : Json) (s : String) : Bool :=
  match status.get? "state" with
  | some (Json.str t) => t == s
  | _ => false

/-- `task.get("status", {}).get("state")`. -/
def taskState (task : Json) : Option Json :=
  ((task.get? "status").getD (Json.obj [])).get? "state"

/-- The artifacts block of `_extract_text_from_task`: when `task["artifacts"]`
is a nonempty list whose first element is a dict with a list `parts` field
yielding at least one truthy text, the joined text; `none` means fall
through to the result block. -/
def taskArtifactsBranch (task : Json) : Option (Except String String) :=
  match task.get? "artifacts" with
  | some (Json.arr (artifact :: _)) =>
    match artifact.get? "parts" with
    | some (Json.arr parts) =>
      let tps := collectTextParts parts
      if tps.isEmpty then none else some (joinTextParts tps)
    | _ => none
  | _ => none

/-- The result block of `_extract_text_from_task`: a dict result is probed
for `message`, then `text`, then `content`; a plain string result is
returned as is; `none` means fall through to the final error. -/
def taskResultBranch (task : Json) : Option (Except String String) :=
  match task.get? "result" with
  | some result =>
    match result with
    | Json.obj _ =>
      match result.get? "message" with
      | some m => some (extractTextFromMessage m)
      | none =>
        match result.get? "text" with
        | some t => some (Except.ok (pyStr t))
        | none =>
          match result.get? "content" with
          | some c => some (Except.ok (pyStr c))
          | none => none
    | Json.str s => some (Except.ok s)
    | _ => none
  | none => none

/-- `_extract_text_from_task`. -/
def extractTextFromTask (task : Json) : Except String String :=
  let status := (task.get? "status").getD (Json.obj [])
  if jsonStateIs status "failed" then
    Except.error ("Task failed: " ++ pyStr ((status.get? "error").getD (Json.str "Unknown error")))
  else if jsonStateIs status "canceled" then
    Except.error "Task was canceled"
  else if jsonStateIs status "rejected" then
    Except.error "Task was rejected"
  else
    match taskArtifactsBranch task with
    | some r => r
    | none =>
      match taskResultBranch task with
      | some r => r
      | none => Except.error "Could not extract text from task result"

/-! ## JSON-RPC transport (`_jsonrpc_call`) and polling (`send_prompt`) -/

/-- One JSON-RPC request as the client issues it: method, params and the
caller-assigned id. -/
structure RpcReq where
  method : String
  params : Json
  id : Int
  deriving Repr

/-- The HTTP request body `_jsonrpc_call` posts for a request. -/
def rpcBody (req : RpcReq) : Json :=
  Json.obj [("jsonrpc", Json.str "2.0"), ("id", Json.num req.id),
    ("method", Json.str req.method), ("params", req.params)]

/-- The environment's answer to one HTTP exchange: a non-2xx status (which
`raise_for_status` turns into an exception) or a decoded JSON body. -/
inductive HttpResp where
  | httpError (status : Nat) (body : String)
  | ok (data : Json)
  deriving Repr

/-- How one `_jsonrpc_call` can fail. -/
inductive RpcFailure where
  | http (status : Nat) (body : String)
  | rpcError (payload : Json)
  | missingResult
  deriving Repr

/-- The response handling of `_jsonrpc_call`: non-2xx raises; a body with an
`error` field raises `RuntimeError` carrying the payload; otherwise
`data["result"]` is returned, raising `KeyError` when absent. -/
def jsonrpcResult : HttpResp → Except RpcFailure Json
  | HttpResp.httpError status body => Except.error (RpcFailure.http status body)
  | HttpResp.ok data =>
    if (data.get? "error").isSome then
      Except.error (RpcFailure.rpcError ((data.get? "error").getD Json.null))
    else
      match data.get? "result" with
      | some r => Except.ok r
      | none => Except.error RpcFailure.missingResult

/-- How one `send_prompt` invocation ends. -/
inductive SendOutcome where
  | ok (text : String)
  | rpcFailure (f : RpcFailure)
  | valueError (msg : String)
  | keyError (key : String)
  | timeout (taskId : Json) (timeoutS : Rat)
  deriving Repr

/-- `state in {"completed", "failed", "canceled", "rejected"}` for the task a
poll returned. -/
def isTerminalState (task : Json) : Bool :=
  match taskState task with
  | some (Json.str s) => s == "completed" || s == "failed" || s == "canceled" || s == "rejected"
  | _ => false

/-- An extraction result as `send_prompt` surfaces it. -/
def outcomeOfExtract : Except String String → SendOutcome
  | Except.ok t => SendOutcome.ok t
  | Except.error m => SendOutcome.valueError m

/-- One iteration's environment: the wall-clock reading `time.time()`
returns at the loop condition, and the response the `tasks/get` call would
receive (consumed only when the condition passes). -/
structure PollTick where
  now : Rat
  resp : HttpResp
  deriving Repr

/-- The polling loop of `send_prompt`, driven by the environment's ticks:
check `time.time() < deadline`; on failure raise
`TimeoutError(f"Task did not finish within timeout_s s")`; on success issue
`tasks/get` with the next request id, return on a terminal state, else sleep
and continue.  An exhausted tick list leaves the run unresolved (`none`). -/
def pollLoop (deadline : Rat) (timeoutS : Rat) (taskId : Json) (requestId : Int) :
    List PollTick → List RpcReq × Option SendOutcome
  | [] => ([], none)
  | tick :: rest =>
    if tick.now < deadline then
      let req : RpcReq := ⟨"tasks/get", Json.obj [("id", taskId)], requestId⟩
      match jsonrpcResult tick.resp with
      | Except.error f => ([req], some (SendOutcome.rpcFailure f))
      | Except.ok task =>
        if isTerminalState task then
          ([req], some (outcomeOfExtract (extractTextFromTask task)))
        else
          let next := pollLoop deadline timeoutS taskId (requestId + 1) rest
          (req :: next.1, next.2)
    else ([], some (SendOutcome.timeout taskId timeoutS))

/-- The environment of one `send_prompt` invocation: the `time.time()`
reading taken when the deadline is computed, the response to the
`message/send` call, and one tick per polling iteration. -/
structure SendEnv where
  startTime : Rat
  sendResp : HttpResp
  ticks : List PollTick
  deriving Repr

/-- The A2A message `send_prompt` builds: role `user`, one text part holding
the prompt, and a fresh message id (the uuid is environment-supplied here). -/
def buildMessage (prompt : String) (messageId : String) : Json :=
  Json.obj [("role", Json.str "user"),
    ("parts", Json.arr [Json.obj [("kind", Json.str "text"), ("text", Json.str prompt)]]),
    ("messageId", Json.str messageId)]

/-- `result.get("kind") != "task"` decides the message branch; this is its
negation. -/
def jsonKindIsTask (result : Json) : Bool :=
  match result.get? "kind" with
  | some (Json.str s) => s == "task"
  | _ => false

/-- `send_prompt`: build the message, issue `message/send` with request id 1,
interpret a non-task result as a message, else poll the task against
`deadline = time.time() + timeout_s` with request ids from 2.  Returns the
requests issued in order and the outcome (`none` when the environment's
tick list ran out with the loop still going).  The `try`/`except` blocks in
the source only log and re-raise, so they add nothing here; the sleep only
advances the clock, which the environment's tick readings already carry. -/
def sendPrompt (cfgTimeoutSeconds : Rat) (prompt : String) (messageId : String)
    (pollIntervalS : Rat) (timeoutS? : Option Rat) (env : SendEnv) :
    List RpcReq × Option SendOutcome :=
  let timeoutS := timeoutS?.getD cfgTimeoutSeconds
  let message := buildMessage prompt messageId
  let req1 : RpcReq :=
    ⟨"message/send", Json.obj [("message", message), ("metadata", Json.obj [])], 1⟩
  match jsonrpcResult env.sendResp with
  | Except.error f => ([req1], some (SendOutcome.rpcFailure f))
  | Except.ok result =>
    if jsonKindIsTask result then
      match result.get? "id" with
      | none => ([req1], some (SendOutcome.keyError "id"))
      | some taskId =>
        let next := pollLoop (env.startTime + timeoutS) timeoutS taskId 2 env.ticks
        (req1 :: next.1, next.2)
    else
      ([req1], some (outcomeOfExtract (extractTextFromMessage result)))

/-- How many of the issued requests are `tasks/get` polls. -/
def numTasksGet (reqs : List RpcReq) : Nat :=
  (reqs.filter (fun q => q.method == "tasks/get")).length

/-- The request ids `[start, start + 1, ...]` of length `n`. -/
def idsFrom (start : Int) : Nat → List Int
  | 0 => []
  | n + 1 => start :: idsFrom (start + 1) n

/-! ## Specification-side definitions (for the refinement claims) -/

/-- Whether a part's `text` field, when present, holds a string (on such
parts Python's `"\n".join` cannot raise, so code and spec wording agree). -/
def wfTextField (p : Json) : Bool :=
  match p.get? "text" with
  | some (Json.str _) => true
  | some _ => false
  | none => true

/-- Well-formed parts: every part of kind `text` carries a string (or no)
`text` field. -/
def WFParts (parts : List Json) : Prop :=
  ∀ p ∈ parts, isTextKind p = true → wfTextField p = true

instance decidableWFParts (parts : List Json) : Decidable (WFParts parts) :=
  inferInstanceAs (Decidable (∀ p ∈ parts, isTextKind p = true → wfTextField p = true))

/-- As the spec words it: the `text` fields of exactly those parts whose
`kind == "text"` and whose text is non-empty, in their original order. -/
def specMessageTexts (parts : List Json) : List String :=
  parts.filterMap fun p =>
    if isTextKind p then
      match p.get? "text" with
      | some (Json.str t) => if t == "" then none else some t
      | _ => none
    else none

/-- The first artifact's parts, `[]` when there is no artifact list, it is
empty, or its first artifact has no part list. -/
def firstArtifactParts (task : Json) : List Json :=
  match task.get? "artifacts" with
  | some (Json.arr (artifact :: _)) =>
    match artifact.get? "parts" with
    | some (Json.arr parts) => parts
    | _ => []
  | _ => []

/-- Steps (b)-(d) of the spec's extraction precedence: `result.message`
interpreted as a message, else `result.text` or `result.content`
stringified, else `result` itself if it is a plain string, else the
extraction error. -/
def specResultFallback (task : Json) : Except String String :=
  match (task.get? "result").bind (fun r => Json.get? r "message") with
  | some m => extractTextFromMessage m
  | none =>
    match (task.get? "result").bind (fun r => Json.get? r "text") with
    | some t => Except.ok (pyStr t)
    | none =>
      match (task.get? "result").bind (fun r => Json.get? r "content") with
      | some c => Except.ok (pyStr c)
      | none =>
        match task.get? "result" with
        | some (Json.str s) => Except.ok s
        | _ => Except.error "Could not extract text from task result"

/-- As the spec words it, the extraction precedence for a terminal
non-failure task: step (a) on the first artifact, then the fallback steps
(b)-(d). -/
def extractFromTaskSpec (task : Json) : Except String String :=
  if specMessageTexts (firstArtifactParts task) ≠ [] then
    Except.ok (String.intercalate "\n" (specMessageTexts (firstArtifactParts task)))
  else specResultFallback task

/-- Which ticks keep the loop polling: each of the first `k` ticks passes
the deadline check and returns a non-terminal task. -/
def ticksStillPolling (deadline : Rat) (ticks : List PollTick) (k : Nat) : Prop :=
  ∀ j, (hjk : j < k) → (hjl : j < ticks.length) →
    (ticks.get ⟨j, hjl⟩).now < deadline ∧
    ∃ task, jsonrpcResult (ticks.get ⟨j, hjl⟩).resp = Except.ok task ∧
      isTerminalState task = false

/-! ## Concrete inputs used by counterexamples and witnesses -/

/-- A failed task whose `status.error` is `"boom"`. -/
def boomTask : Json :=
  Json.obj [("status", Json.obj [("state", Json.str "failed"), ("error", Json.str "boom")])]

/-- A completed task with one artifact containing two text parts `a`, `b`. -/
def exampleCompletedTaskAB : Json :=
  Json.obj [("status", Json.obj [("state", Json.str "completed")]),
    ("artifacts", Json.arr [Json.obj [("parts", Json.arr
      [Json.obj [("kind", Json.str "text"), ("text", Json.str "a")],
       Json.obj [("kind", Json.str "text"), ("text", Json.str "b")]])]])]

/-- An environment whose `message/send` answer is a direct message. -/
def msgOnlyEnv : SendEnv :=
  ⟨0, HttpResp.ok (Json.obj [("result", Json.obj
    [("parts", Json.arr [Json.obj [("kind", Json.str "text"), ("text", Json.str "hi")]])])]), []⟩

/-- The `message/send` request of the concrete run against `msgOnlyEnv`. -/
def msgSendReq : RpcReq :=
  ⟨"message/send", Json.obj [("message", buildMessage "hi" "mid1"), ("metadata", Json.obj [])], 1⟩

/-- An environment whose `message/send` answer is a task and whose single
poll tick reads the clock at 7 while the deadline (with `timeout_s = 5`,
start time 0) is 5: the deadline check fails with 7 seconds elapsed. -/
def timeoutEnv : SendEnv :=
  ⟨0, HttpResp.ok (Json.obj [("result", Json.obj
    [("kind", Json.str "task"), ("id", Json.str "t1")])]),
   [⟨7, HttpResp.ok Json.null⟩]⟩

/-- An environment with a task answer and two poll ticks: a non-terminal
`working` task at time 1, a `completed` task with one text artifact at
time 2. -/
def pollEnv : SendEnv :=
  ⟨0, HttpResp.ok (Json.obj [("result", Json.obj
    [("kind", Json.str "task"), ("id", Json.str "t1")])]),
   [⟨1, HttpResp.ok (Json.obj [("result", Json.obj
      [("status", Json.obj [("state", Json.str "working")])])])⟩,
    ⟨2, HttpResp.ok (Json.obj [("result", exampleCompletedTaskAB)])⟩]⟩

/-! ## Theorems -/

/-- **C5** — When the discovery document's `url` field has a present,
non-root path component, the resolved RPC URL is that url with trailing
slashes stripped, whatever the configured endpoint path (and base url). -/
theorem discover_uses_card_url_with_path (card : Json) (serviceUrl baseUrl endpointPath : String)
    (hurl : card.get? "url" = some (Json.str serviceUrl))
    (hpath : urlparsePath serviceUrl ≠ "")
    (hroot : urlparsePath serviceUrl ≠ "/") :
    discoverRpcUrl (some card) baseUrl endpointPath = rstripSlash serviceUrl := by
  have hne : serviceUrl ≠ "" := by
    intro h
    subst h
    exact hpath rfl
  simp only [discoverRpcUrl, hurl]
  rw [if_neg (by simpa using hne)]
  rw [if_pos]
  simp [bne_iff_ne, hpath, hroot]

/-- **C5 witness** — the theorem applied to a concrete card. -/
theorem discover_uses_card_url_with_path_witness :
    discoverRpcUrl (some (Json.obj [("url", Json.str "https://h.example/rpc/")]))
      "https://b.example" "/v1/chat" = rstripSlash "https://h.example/rpc/" :=
  discover_uses_card_url_with_path (Json.obj [("url", Json.str "https://h.example/rpc/")])
    "https://h.example/rpc/" "https://b.example" "/v1/chat" (by rfl)
    (by decide) (by decide)

/-- Prepending `/` yields a string that starts with `/`. -/
theorem startsWithSlash_slash_append (s : String) : startsWithSlash ("/" ++ s) = true := by
  have h : ("/" ++ s).data = '/' :: s.data := String.data_append "/" s
  unfold startsWithSlash
  rw [h]
  rfl

/-- `ensureLeadingSlash` always yields a string that starts with `/`. -/
theorem startsWithSlash_ensure (q : String) :
    startsWithSlash (ensureLeadingSlash q) = true := by
  unfold ensureLeadingSlash
  split
  · assumption
  · exact startsWithSlash_slash_append q

/-- **C6** — When discovery fails, or the card's `url` is absent, or its
path component is absent or the root, resolution still succeeds (the
resolver is total: every failure falls back rather than aborting) and the
RPC URL is the card's url-or-the-base-url with trailing slashes stripped,
concatenated with the configured endpoint path normalized to start with
`/`, the path defaulting to `/` when the configured path is empty. -/
theorem discover_fallback_builds_url (baseUrl endpointPath : String) :
    discoverRpcUrl none baseUrl endpointPath
        = rstripSlash baseUrl ++ normalizeEndpointPath endpointPath
    ∧ (∀ card : Json, card.get? "url" = none →
        discoverRpcUrl (some card) baseUrl endpointPath
          = rstripSlash baseUrl ++ normalizeEndpointPath endpointPath)
    ∧ (∀ card serviceUrl, card.get? "url" = some (Json.str serviceUrl) →
        (urlparsePath serviceUrl = "" ∨ urlparsePath serviceUrl = "/") →
        discoverRpcUrl (some card) baseUrl endpointPath
          = (if serviceUrl = "" then rstripSlash baseUrl ++ normalizeEndpointPath endpointPath
             else rstripSlash serviceUrl ++ normalizeEndpointPath endpointPath))
    ∧ startsWithSlash (normalizeEndpointPath endpointPath) = true
    ∧ normalizeEndpointPath "" = "/" := by
  refine ⟨rfl, ?_, ?_, ?_, rfl⟩
  · intro card hurl
    simp [discoverRpcUrl, hurl, buildRpcUrl]
  · intro card serviceUrl hurl hroot
    simp only [discoverRpcUrl, hurl, buildRpcUrl]
    by_cases hne : serviceUrl = ""
    · simp [hne]
    · rw [if_neg (by simpa using hne), if_neg, if_neg hne]
      rcases hroot with h | h <;> simp [h]
  · exact startsWithSlash_ensure _

/-- **C9** — A 2xx JSON-RPC response whose object body has neither a
`result` nor an `error` field makes the transport fail (the `data["result"]`
access raises); it never returns normally. -/
theorem jsonrpc_missing_result_fails (fields : List (String × Json))
    (hne : lookupField fields "error" = none)
    (hnr : lookupField fields "result" = none) :
    jsonrpcResult (HttpResp.ok (Json.obj fields)) = Except.error RpcFailure.missingResult := by
  simp [jsonrpcResult, Json.get?, hne, hnr]

/-- **C9 witness** — the theorem applied to the empty body. -/
theorem jsonrpc_missing_result_fails_witness :
    jsonrpcResult (HttpResp.ok (Json.obj [])) = Except.error RpcFailure.missingResult :=
  jsonrpc_missing_result_fails [] rfl rfl

/-- Under well-formedness the code's `text_parts` loop collects exactly the
spec's texts, as JSON strings. -/
theorem collectTextParts_wf (parts : List Json) (hwf : WFParts parts) :
    collectTextParts parts = (specMessageTexts parts).map Json.str := by
  induction parts with
  | nil => rfl
  | cons p ps ih =>
    have hps : WFParts ps := fun q hq => hwf q (List.mem_cons_of_mem p hq)
    have ihps := ih hps
    simp only [collectTextParts, specMessageTexts, List.filterMap_cons] at ihps ⊢
    by_cases hk : isTextKind p
    · cases ht : p.get? "text" with
      | none => simpa [hk, ht, Json.truthy] using ihps
      | some v =>
        have hwfp := hwf p (List.mem_cons_self p ps) hk
        rcases v with _ | b | n | s | elems | fields <;>
          simp [wfTextField, ht] at hwfp
        by_cases hs : s = ""
        · simpa [hk, ht, hs, Json.truthy] using ihps
        · simpa [hk, ht, hs, Json.truthy] using ihps
    · simpa [hk] using ihps

/-- `asStrings` succeeds on a list of JSON strings. -/
theorem asStrings_map (l : List String) : asStrings (l.map Json.str) = some l := by
  induction l with
  | nil => rfl
  | cons s ss ih => simp [asStrings, ih]

/-- Joining a list of JSON strings is the plain newline join. -/
theorem joinTextParts_map (l : List String) :
    joinTextParts (l.map Json.str) = Except.ok (String.intercalate "\n" l) := by
  simp [joinTextParts, asStrings_map]

/-- Unfolding `_extract_text_from_task` on a failed task. -/
theorem extractTextFromTask_failed (task status : Json)
    (hstatus : task.get? "status" = some status)
    (hstate : status.get? "state" = some (Json.str "failed")) :
    extractTextFromTask task
      = Except.error ("Task failed: "
          ++ pyStr ((status.get? "error").getD (Json.str "Unknown error"))) := by
  simp [extractTextFromTask, hstatus, jsonStateIs, hstate]

/-- **C4** — A task in a terminal failure state fails with the classified
error: `failed` carries `status.error` stringified (or the generic
`Unknown error` when absent), `canceled` and `rejected` carry their fixed
messages; the concrete failed task with `status.error == "boom"` yields a
message containing `boom`. -/
theorem extract_task_failure_classified :
    (∀ task status, task.get? "status" = some status →
        status.get? "state" = some (Json.str "failed") →
        ((∀ v, status.get? "error" = some v →
            extractTextFromTask task = Except.error ("Task failed: " ++ pyStr v))
         ∧ (status.get? "error" = none →
            extractTextFromTask task = Except.error "Task failed: Unknown error")))
    ∧ (∀ task status, task.get? "status" = some status →
        status.get? "state" = some (Json.str "canceled") →
        extractTextFromTask task = Except.error "Task was canceled")
    ∧ (∀ task status, task.get? "status" = some status →
        status.get? "state" = some (Json.str "rejected") →
        extractTextFromTask task = Except.error "Task was rejected")
    ∧ extractTextFromTask boomTask = Except.error "Task failed: boom"
    ∧ (∃ pre post, extractTextFromTask boomTask = Except.error (pre ++ "boom" ++ post)) := by
  refine ⟨?_, ?_, ?_, by rfl, "Task failed: ", "", by rfl⟩
  · intro task status hstatus hstate
    constructor
    · intro v hv
      rw [extractTextFromTask_failed task status hstatus hstate, hv]
      rfl
    · intro hv
      rw [extractTextFromTask_failed task status hstatus hstate, hv]
      rfl
  · intro task status hstatus hstate
    simp [extractTextFromTask, hstatus, jsonStateIs, hstate]
  · intro task status hstatus hstate
    simp [extractTextFromTask, hstatus, jsonStateIs, hstate]


/-- **C7** — `_extract_text_from_message` returns the `text` fields of
exactly the parts with `kind == "text"` and non-empty text, joined by
newline in original order; with no such part it returns the stringified
`content` field when present and fails with the extraction error otherwise;
as a pure function it is trivially deterministic on a fixed input (the last
conjunct). -/
theorem extract_message_follows_spec (message : Json) (parts : List Json)
    (hp : message.get? "parts" = some (Json.arr parts))
    (hwf : WFParts parts) :
    (specMessageTexts parts ≠ [] →
        extractTextFromMessage message
          = Except.ok (String.intercalate "\n" (specMessageTexts parts)))
    ∧ (specMessageTexts parts = [] →
        (∀ c, message.get? "content" = some c →
            extractTextFromMessage message = Except.ok (pyStr c))
        ∧ (message.get? "content" = none →
            extractTextFromMessage message
              = Except.error "Could not extract text from message"))
    ∧ extractTextFromMessage message = extractTextFromMessage message := by
  have hc := collectTextParts_wf parts hwf
  refine ⟨?_, ?_, rfl⟩
  · intro hne
    rcases hsp : specMessageTexts parts with _ | ⟨t, ts⟩
    · exact absurd hsp hne
    · rw [hsp] at hc
      have hj := joinTextParts_map (t :: ts)
      simp only [List.map_cons] at hj hc
      simp [extractTextFromMessage, hp, hc, hj]
  · intro hsp
    rw [hsp] at hc
    constructor
    · intro c hcontent
      simp [extractTextFromMessage, hp, hc, hcontent]
    · intro hcontent
      simp [extractTextFromMessage, hp, hc, hcontent]

/-- **C7 witness** — the theorem applied to a concrete three-part message
(one part empty, one part of another kind). -/
theorem extract_message_follows_spec_witness :
    (specMessageTexts
        [Json.obj [("kind", Json.str "text"), ("text", Json.str "hi")],
         Json.obj [("kind", Json.str "text"), ("text", Json.str "")],
         Json.obj [("kind", Json.str "data"), ("text", Json.str "zz")],
         Json.obj [("kind", Json.str "text"), ("text", Json.str "yo")]] ≠ [] →
      extractTextFromMessage (Json.obj [("parts", Json.arr
        [Json.obj [("kind", Json.str "text"), ("text", Json.str "hi")],
         Json.obj [("kind", Json.str "text"), ("text", Json.str "")],
         Json.obj [("kind", Json.str "data"), ("text", Json.str "zz")],
         Json.obj [("kind", Json.str "text"), ("text", Json.str "yo")]])])
        = Except.ok (String.intercalate "\n" (specMessageTexts
            [Json.obj [("kind", Json.str "text"), ("text", Json.str "hi")],
             Json.obj [("kind", Json.str "text"), ("text", Json.str "")],
             Json.obj [("kind", Json.str "data"), ("text", Json.str "zz")],
             Json.obj [("kind", Json.str "text"), ("text", Json.str "yo")]])))
    ∧ (specMessageTexts
        [Json.obj [("kind", Json.str "text"), ("text", Json.str "hi")],
         Json.obj [("kind", Json.str "text"), ("text", Json.str "")],
         Json.obj [("kind", Json.str "data"), ("text", Json.str "zz")],
         Json.obj [("kind", Json.str "text"), ("text", Json.str "yo")]] = [] →
        (∀ c, (Json.obj [("parts", Json.arr
            [Json.obj [("kind", Json.str "text"), ("text", Json.str "hi")],
             Json.obj [("kind", Json.str "text"), ("text", Json.str "")],
             Json.obj [("kind", Json.str "data"), ("text", Json.str "zz")],
             Json.obj [("kind", Json.str "text"), ("text", Json.str "yo")]])]).get? "content"
              = some c →
            extractTextFromMessage (Json.obj [("parts", Json.arr
              [Json.obj [("kind", Json.str "text"), ("text", Json.str "hi")],
               Json.obj [("kind", Json.str "text"), ("text", Json.str "")],
               Json.obj [("kind", Json.str "data"), ("text", Json.str "zz")],
               Json.obj [("kind", Json.str "text"), ("text", Json.str "yo")]])])
              = Except.ok (pyStr c))
        ∧ ((Json.obj [("parts", Json.arr
            [Json.obj [("kind", Json.str "text"), ("text", Json.str "hi")],
             Json.obj [("kind", Json.str "text"), ("text", Json.str "")],
             Json.obj [("kind", Json.str "data"), ("text", Json.str "zz")],
             Json.obj [("kind", Json.str "text"), ("text", Json.str "yo")]])]).get? "content"
              = none →
            extractTextFromMessage (Json.obj [("parts", Json.arr
              [Json.obj [("kind", Json.str "text"), ("text", Json.str "hi")],
               Json.obj [("kind", Json.str "text"), ("text", Json.str "")],
               Json.obj [("kind", Json.str "data"), ("text", Json.str "zz")],
               Json.obj [("kind", Json.str "text"), ("text", Json.str "yo")]])])
              = Except.error "Could not extract text from message"))
    ∧ extractTextFromMessage (Json.obj [("parts", Json.arr
        [Json.obj [("kind", Json.str "text"), ("text", Json.str "hi")],
         Json.obj [("kind", Json.str "text"), ("text", Json.str "")],
         Json.obj [("kind", Json.str "data"), ("text", Json.str "zz")],
         Json.obj [("kind", Json.str "text"), ("text", Json.str "yo")]])])
      = extractTextFromMessage (Json.obj [("parts", Json.arr
        [Json.obj [("kind", Json.str "text"), ("text", Json.str "hi")],
         Json.obj [("kind", Json.str "text"), ("text", Json.str "")],
         Json.obj [("kind", Json.str "data"), ("text", Json.str "zz")],
         Json.obj [("kind", Json.str "text"), ("text", Json.str "yo")]])]) :=
  extract_message_follows_spec
    (Json.obj [("parts", Json.arr
      [Json.obj [("kind", Json.str "text"), ("text", Json.str "hi")],
       Json.obj [("kind", Json.str "text"), ("text", Json.str "")],
       Json.obj [("kind", Json.str "data"), ("text", Json.str "zz")],
       Json.obj [("kind", Json.str "text"), ("text", Json.str "yo")]])])
    [Json.obj [("kind", Json.str "text"), ("text", Json.str "hi")],
     Json.obj [("kind", Json.str "text"), ("text", Json.str "")],
     Json.obj [("kind", Json.str "data"), ("text", Json.str "zz")],
     Json.obj [("kind", Json.str "text"), ("text", Json.str "yo")]]
    (by rfl) (by decide)

/-- Under well-formedness of the first artifact's parts, the code's
artifacts block yields exactly the spec's step (a). -/
theorem taskArtifactsBranch_wf (task : Json) (hwf : WFParts (firstArtifactParts task)) :
    taskArtifactsBranch task
      = if specMessageTexts (firstArtifactParts task) = [] then none
        else some (Except.ok (String.intercalate "\n"
          (specMessageTexts (firstArtifactParts task)))) := by
  cases ha : task.get? "artifacts" with
  | none => simp [taskArtifactsBranch, firstArtifactParts, ha, specMessageTexts]
  | some a =>
    rcases a with _ | b | n | s | elems | fields
    · simp [taskArtifactsBranch, firstArtifactParts, ha, specMessageTexts]
    · simp [taskArtifactsBranch, firstArtifactParts, ha, specMessageTexts]
    · simp [taskArtifactsBranch, firstArtifactParts, ha, specMessageTexts]
    · simp [taskArtifactsBranch, firstArtifactParts, ha, specMessageTexts]
    · rcases elems with _ | ⟨artifact, rest⟩
      · simp [taskArtifactsBranch, firstArtifactParts, ha, specMessageTexts]
      · cases hp : artifact.get? "parts" with
        | none => simp [taskArtifactsBranch, firstArtifactParts, ha, hp, specMessageTexts]
        | some pv =>
          rcases pv with _ | b2 | n2 | s2 | parts | fields2
          · simp [taskArtifactsBranch, firstArtifactParts, ha, hp, specMessageTexts]
          · simp [taskArtifactsBranch, firstArtifactParts, ha, hp, specMessageTexts]
          · simp [taskArtifactsBranch, firstArtifactParts, ha, hp, specMessageTexts]
          · simp [taskArtifactsBranch, firstArtifactParts, ha, hp, specMessageTexts]
          · have hfap : firstArtifactParts task = parts := by
              simp [firstArtifactParts, ha, hp]
            rw [hfap] at hwf ⊢
            have hc := collectTextParts_wf parts hwf
            rcases hsp : specMessageTexts parts with _ | ⟨t, ts⟩
            · rw [hsp] at hc
              simp [taskArtifactsBranch, ha, hp, hc, hsp]
            · rw [hsp] at hc
              have hj := joinTextParts_map (t :: ts)
              simp only [List.map_cons] at hj hc
              simp [taskArtifactsBranch, ha, hp, hc, hj, hsp]
          · simp [taskArtifactsBranch, firstArtifactParts, ha, hp, specMessageTexts]
    · simp [taskArtifactsBranch, firstArtifactParts, ha, specMessageTexts]

/-- The code's result block (with its final error) matches the spec's steps
(b)-(d) exactly, for every task. -/
theorem taskResultBranch_fallback (task : Json) :
    (match taskResultBranch task with
     | some r => r
     | none => Except.error "Could not extract text from task result")
      = specResultFallback task := by
  cases hr : task.get? "result" with
  | none =>
    simp only [taskResultBranch, specResultFallback, hr]
    rfl
  | some r =>
    rcases r with _ | b | n | s | elems | fields
    · simp only [taskResultBranch, specResultFallback, hr, Option.bind_some]
      simp [Json.get?]
    · simp only [taskResultBranch, specResultFallback, hr, Option.bind_some]
      simp [Json.get?]
    · simp only [taskResultBranch, specResultFallback, hr, Option.bind_some]
      simp [Json.get?]
    · simp only [taskResultBranch, specResultFallback, hr, Option.bind_some]
      simp [Json.get?]
    · simp only [taskResultBranch, specResultFallback, hr, Option.bind_some]
      simp [Json.get?]
    · cases hm : lookupField fields "message" with
      | some m =>
        simp only [taskResultBranch, specResultFallback, hr, Option.bind_some]
        simp [Json.get?, hm]
      | none =>
        cases ht : lookupField fields "text" with
        | some t =>
          simp only [taskResultBranch, specResultFallback, hr, Option.bind_some]
          simp [Json.get?, hm, ht]
        | none =>
          cases hcf : lookupField fields "content" with
          | some c =>
            simp only [taskResultBranch, specResultFallback, hr, Option.bind_some]
            simp [Json.get?, hm, ht, hcf]
          | none =>
            simp only [taskResultBranch, specResultFallback, hr, Option.bind_some]
            simp [Json.get?, hm, ht, hcf]

/-- Unfolding `_extract_text_from_task` on a completed task: the failure
guards fall away. -/
theorem extractTextFromTask_completed (task : Json)
    (hstate : taskState task = some (Json.str "completed")) :
    extractTextFromTask task
      = (match taskArtifactsBranch task with
        | some r => r
        | none =>
          match taskResultBranch task with
          | some r => r
          | none => Except.error "Could not extract text from task result") := by
  have hst : ((task.get? "status").getD (Json.obj [])).get? "state"
      = some (Json.str "completed") := hstate
  simp [extractTextFromTask, jsonStateIs, hst,
    show (("completed" : String) == "failed") = false by decide,
    show (("completed" : String) == "canceled") = false by decide,
    show (("completed" : String) == "rejected") = false by decide]

/-- **C3** — On a task in the terminal non-failure state (`completed`),
`_extract_text_from_task` realises exactly the spec's extraction
precedence (a)-(d) (stated as equality with the spec-worded
`extractFromTaskSpec`), and the concrete completed task with one artifact
holding text parts `a` and `b` yields `"a\nb"`. -/
theorem extract_task_follows_spec_precedence (task : Json)
    (hstate : taskState task = some (Json.str "completed"))
    (hwf : WFParts (firstArtifactParts task)) :
    extractTextFromTask task = extractFromTaskSpec task
    ∧ extractTextFromTask exampleCompletedTaskAB = Except.ok "a\nb" := by
  refine ⟨?_, by rfl⟩
  rw [extractTextFromTask_completed task hstate, taskArtifactsBranch_wf task hwf]
  unfold extractFromTaskSpec
  by_cases hsp : specMessageTexts (firstArtifactParts task) = []
  · rw [if_pos hsp, if_neg (by simpa using hsp)]
    exact taskResultBranch_fallback task
  · rw [if_neg hsp, if_pos hsp]

/-- **C3 witness** — the theorem applied to the concrete completed task. -/
theorem extract_task_follows_spec_precedence_witness :
    extractTextFromTask exampleCompletedTaskAB = extractFromTaskSpec exampleCompletedTaskAB
    ∧ extractTextFromTask exampleCompletedTaskAB = Except.ok "a\nb" :=
  extract_task_follows_spec_precedence exampleCompletedTaskAB (by rfl) (by decide)

/-- Every request the polling loop issues is a `tasks/get` carrying the task
id as its params object. -/
theorem pollLoop_reqs_shape (deadline timeoutS : Rat) (taskId : Json) (requestId : Int)
    (ticks : List PollTick) :
    ∀ req ∈ (pollLoop deadline timeoutS taskId requestId ticks).1,
      req.method = "tasks/get" ∧ req.params = Json.obj [("id", taskId)] := by
  induction ticks generalizing requestId with
  | nil => intro req h; simp [pollLoop] at h
  | cons tick rest ih =>
    intro req h
    by_cases hlt : tick.now < deadline
    · simp only [pollLoop, if_pos hlt] at h
      cases hjr : jsonrpcResult tick.resp with
      | error f =>
        rw [hjr] at h
        simp at h
        subst h
        exact ⟨rfl, rfl⟩
      | ok task =>
        rw [hjr] at h
        by_cases ht : isTerminalState task
        · simp [ht] at h
          subst h
          exact ⟨rfl, rfl⟩
        · simp [ht] at h
          rcases h with h | h
          · subst h; exact ⟨rfl, rfl⟩
          · exact ih (requestId + 1) req h
    · simp [pollLoop, hlt] at h

/-- The ids the polling loop issues count up from its starting id. -/
theorem pollLoop_ids (deadline timeoutS : Rat) (taskId : Json) (requestId : Int)
    (ticks : List PollTick) :
    (pollLoop deadline timeoutS taskId requestId ticks).1.map (fun q => q.id)
      = idsFrom requestId (pollLoop deadline timeoutS taskId requestId ticks).1.length := by
  induction ticks generalizing requestId with
  | nil => rfl
  | cons tick rest ih =>
    by_cases hlt : tick.now < deadline
    · simp only [pollLoop, if_pos hlt]
      cases hjr : jsonrpcResult tick.resp with
      | error f => rfl
      | ok task =>
        by_cases ht : isTerminalState task
        · simp [ht, idsFrom]
        · simp [ht, idsFrom, ih (requestId + 1)]
    · simp [pollLoop, hlt, idsFrom]

/-- Every id the polling loop issues is at least its starting id. -/
theorem pollLoop_ids_ge (deadline timeoutS : Rat) (taskId : Json) (requestId : Int)
    (ticks : List PollTick) :
    ∀ req ∈ (pollLoop deadline timeoutS taskId requestId ticks).1, requestId ≤ req.id := by
  induction ticks generalizing requestId with
  | nil => intro req h; simp [pollLoop] at h
  | cons tick rest ih =>
    intro req h
    by_cases hlt : tick.now < deadline
    · simp only [pollLoop, if_pos hlt] at h
      cases hjr : jsonrpcResult tick.resp with
      | error f =>
        rw [hjr] at h
        simp at h
        subst h
        exact le_refl _
      | ok task =>
        rw [hjr] at h
        by_cases ht : isTerminalState task
        · simp [ht] at h
          subst h
          exact le_refl _
        · simp [ht] at h
          rcases h with h | h
          · subst h; exact le_refl _
          · have := ih (requestId + 1) req h
            omega
    · simp [pollLoop, hlt] at h

/-- Once a tick's reading reaches the deadline, the loop has issued at most
as many requests as there were earlier ticks: the deadline condition is
checked before each `tasks/get`, and a failing check is a hard stop. -/
theorem pollLoop_deadline_stops (deadline timeoutS : Rat) (taskId : Json) (requestId : Int)
    (ticks : List PollTick) :
    ∀ k, (hk : k < ticks.length) → deadline ≤ (ticks.get ⟨k, hk⟩).now →
      (pollLoop deadline timeoutS taskId requestId ticks).1.length ≤ k := by
  induction ticks generalizing requestId with
  | nil => intro k hk; exact absurd hk (Nat.not_lt_zero k)
  | cons tick rest ih =>
    intro k hk hge
    by_cases hlt : tick.now < deadline
    · cases k with
      | zero =>
        simp only [List.get] at hge
        exact absurd hge (not_le.mpr hlt)
      | succ j =>
        simp only [pollLoop, if_pos hlt]
        cases hjr : jsonrpcResult tick.resp with
        | error f => simp
        | ok task =>
          by_cases ht : isTerminalState task
          · simp [ht]
          · have hj : j < rest.length := Nat.lt_of_succ_lt_succ hk
            have hge2 : deadline ≤ (rest.get ⟨j, hj⟩).now := by
              simpa using hge
            have := ih (requestId + 1) j hj hge2
            simp only [ht, if_neg, Bool.false_eq_true, if_false]
            simp only [List.length_cons]
            omega
    · simp [pollLoop, hlt]

/-- A timeout outcome of the loop carries exactly the task id and the
timeout budget it was given. -/
theorem pollLoop_timeout_shape (deadline timeoutS : Rat) (taskId : Json) (requestId : Int)
    (ticks : List PollTick) :
    ∀ x y, (pollLoop deadline timeoutS taskId requestId ticks).2
        = some (SendOutcome.timeout x y) → x = taskId ∧ y = timeoutS := by
  induction ticks generalizing requestId with
  | nil => intro x y h; simp [pollLoop] at h
  | cons tick rest ih =>
    intro x y h
    by_cases hlt : tick.now < deadline
    · simp only [pollLoop, if_pos hlt] at h
      cases hjr : jsonrpcResult tick.resp with
      | error f =>
        rw [hjr] at h
        simp at h
      | ok task =>
        rw [hjr] at h
        by_cases ht : isTerminalState task
        · cases he : extractTextFromTask task with
          | ok t => simp [ht, outcomeOfExtract, he] at h
          | error m => simp [ht, outcomeOfExtract, he] at h
        · simp [ht] at h
          exact ih (requestId + 1) x y h
    · simp [pollLoop, hlt] at h
      exact ⟨h.1.symm, h.2.symm⟩

/-- When the first `k` ticks keep the loop polling and the `k`-th reading
has reached the deadline, the loop times out with the task id and budget. -/
theorem pollLoop_timeout_reached (deadline timeoutS : Rat) (taskId : Json) (requestId : Int)
    (ticks : List PollTick) :
    ∀ k, (hk : k < ticks.length) → deadline ≤ (ticks.get ⟨k, hk⟩).now →
      ticksStillPolling deadline ticks k →
      (pollLoop deadline timeoutS taskId requestId ticks).2
        = some (SendOutcome.timeout taskId timeoutS) := by
  induction ticks generalizing requestId with
  | nil => intro k hk; exact absurd hk (Nat.not_lt_zero k)
  | cons tick rest ih =>
    intro k hk hge hpoll
    cases k with
    | zero =>
      simp only [List.get] at hge
      have hnlt : ¬ tick.now < deadline := not_lt.mpr hge
      simp [pollLoop, hnlt]
    | succ j =>
      have h0 := hpoll 0 (Nat.succ_pos j) (Nat.succ_pos rest.length)
      simp only [List.get] at h0
      obtain ⟨hlt, task, hjr, hterm⟩ := h0
      simp only [pollLoop, if_pos hlt, hjr]
      simp only [hterm, Bool.false_eq_true, if_false]
      have hj : j < rest.length := Nat.lt_of_succ_lt_succ hk
      have hge2 : deadline ≤ (rest.get ⟨j, hj⟩).now := by simpa using hge
      have hpoll2 : ticksStillPolling deadline rest j := by
        intro i hij hil
        have := hpoll (i + 1) (Nat.succ_lt_succ hij) (Nat.succ_lt_succ hil)
        simpa using this
      exact ih (requestId + 1) j hj hge2 hpoll2

/-- A list of pure `tasks/get` requests is counted whole. -/
theorem numTasksGet_all (l : List RpcReq) (h : ∀ q ∈ l, q.method = "tasks/get") :
    numTasksGet l = l.length := by
  unfold numTasksGet
  rw [List.filter_eq_self.mpr]
  intro a ha
  simp [h a ha]

/-- `send_prompt` always issues the `message/send` request, with id 1,
first. -/
theorem sendPrompt_reqs_head (cfgT : Rat) (prompt messageId : String) (pollI : Rat)
    (timeoutS? : Option Rat) (env : SendEnv) :
    ∃ rest, (sendPrompt cfgT prompt messageId pollI timeoutS? env).1
      = (⟨"message/send",
          Json.obj [("message", buildMessage prompt messageId), ("metadata", Json.obj [])],
          1⟩ : RpcReq) :: rest := by
  unfold sendPrompt
  cases jsonrpcResult env.sendResp with
  | error f => exact ⟨[], rfl⟩
  | ok result =>
    by_cases hk : jsonKindIsTask result = true
    · simp only [hk, if_pos]
      cases result.get? "id" with
      | none => exact ⟨[], rfl⟩
      | some tid => exact ⟨_, rfl⟩
    · simp only [Bool.not_eq_true] at hk
      simp only [hk, Bool.false_eq_true, if_false]
      exact ⟨[], rfl⟩

/-- A cons headed by a non-poll request adds nothing to the poll count. -/
theorem numTasksGet_cons (q : RpcReq) (l : List RpcReq)
    (h : (q.method == "tasks/get") = false) :
    numTasksGet (q :: l) = numTasksGet l := by
  simp [numTasksGet, List.filter_cons, h]

/-- **C1 (counterexample)** — the `message/send` request body the client
issues in a concrete run has no `protocol_version` field (the version field
is named `jsonrpc`). -/
theorem rpc_body_no_protocol_version_field :
    ((sendPrompt 300 "hi" "mid1" (1/2) none msgOnlyEnv).1.map
      (fun q => (rpcBody q).get? "protocol_version")) = [none] := by rfl

/-- **C1 (amended)** — every request body the client issues (`message/send`
and `tasks/get` alike) is a JSON object carrying `jsonrpc = "2.0"` (the
version field is `jsonrpc`, not `protocol_version`) alongside the integer
request id, the method string, and an object `params`. -/
theorem rpc_body_fields (cfgT : Rat) (prompt messageId : String) (pollI : Rat)
    (timeoutS? : Option Rat) (env : SendEnv) (req : RpcReq)
    (h : req ∈ (sendPrompt cfgT prompt messageId pollI timeoutS? env).1) :
    (rpcBody req).get? "jsonrpc" = some (Json.str "2.0")
    ∧ (rpcBody req).get? "id" = some (Json.num req.id)
    ∧ (rpcBody req).get? "method" = some (Json.str req.method)
    ∧ ∃ fields, (rpcBody req).get? "params" = some (Json.obj fields) := by
  refine ⟨rfl, rfl, rfl, ?_⟩
  unfold sendPrompt at h
  cases hjr : jsonrpcResult env.sendResp with
  | error f =>
    rw [hjr] at h
    simp at h
    subst h
    exact ⟨_, rfl⟩
  | ok result =>
    rw [hjr] at h
    by_cases hkind : jsonKindIsTask result = true
    · simp only [hkind, if_pos] at h
      cases hid : result.get? "id" with
      | none =>
        rw [hid] at h
        simp at h
        subst h
        exact ⟨_, rfl⟩
      | some tid =>
        rw [hid] at h
        simp at h
        rcases h with h | h
        · subst h; exact ⟨_, rfl⟩
        · have hp := (pollLoop_reqs_shape _ _ tid 2 env.ticks req h).2
          refine ⟨[("id", tid)], ?_⟩
          show some req.params = some (Json.obj [("id", tid)])
          rw [hp]
    · simp only [Bool.not_eq_true] at hkind
      simp only [hkind, Bool.false_eq_true, if_false] at h
      simp at h
      subst h
      exact ⟨_, rfl⟩

/-- **C1 witness** — the amended theorem applied to the `message/send`
request of a concrete run. -/
theorem rpc_body_fields_witness :
    (rpcBody msgSendReq).get? "jsonrpc" = some (Json.str "2.0")
    ∧ (rpcBody msgSendReq).get? "id" = some (Json.num msgSendReq.id)
    ∧ (rpcBody msgSendReq).get? "method" = some (Json.str msgSendReq.method)
    ∧ ∃ fields, (rpcBody msgSendReq).get? "params" = some (Json.obj fields) :=
  rpc_body_fields 300 "hi" "mid1" (1/2) none msgOnlyEnv msgSendReq (List.Mem.head _)

/-- **C2 (counterexample)** — with start time 0, `timeout_s = 5` and the
single deadline-check clock reading at 7, the run times out carrying the
budget 5 while the elapsed duration is 7: the timeout error names the
configured timeout, not the elapsed duration. -/
theorem timeout_carries_budget_not_elapsed :
    (sendPrompt 5 "p" "m" (1/2) none timeoutEnv).2
        = some (SendOutcome.timeout (Json.str "t1") 5)
    ∧ (7 : Rat) - timeoutEnv.startTime ≠ 5 := by
  constructor
  · show (pollLoop ((0 : Rat) + 5) 5 (Json.str "t1") 2 timeoutEnv.ticks).2
        = some (SendOutcome.timeout (Json.str "t1") 5)
    refine pollLoop_timeout_reached ((0 : Rat) + 5) 5 (Json.str "t1") 2 timeoutEnv.ticks 0
      (by decide) ?_ (fun j hj _ => absurd hj (Nat.not_lt_zero j))
    show (0 : Rat) + 5 ≤ 7
    norm_num
  · show (7 : Rat) - 0 ≠ 5
    norm_num

/-- **C2 (amended)** — the deadline condition is evaluated before every
`tasks/get` and a failing check is a hard stop: once the `k`-th clock
reading has reached the deadline at most `k` polls were issued; a timeout
outcome carries the polled task's id and the configured timeout duration
`timeout_s` (the source reports the budget, not the measured elapsed
time); and when the deadline elapses while the task is still non-terminal
the run does fail with that timeout error. -/
theorem send_prompt_deadline (cfgT : Rat) (prompt messageId : String) (pollI : Rat)
    (timeoutS? : Option Rat) (env : SendEnv) :
    (∀ k, ∀ hk : k < env.ticks.length,
        env.startTime + timeoutS?.getD cfgT ≤ (env.ticks.get ⟨k, hk⟩).now →
        numTasksGet (sendPrompt cfgT prompt messageId pollI timeoutS? env).1 ≤ k)
    ∧ (∀ x y, (sendPrompt cfgT prompt messageId pollI timeoutS? env).2
          = some (SendOutcome.timeout x y) →
        y = timeoutS?.getD cfgT
        ∧ ∃ result, jsonrpcResult env.sendResp = Except.ok result
            ∧ result.get? "id" = some x)
    ∧ (∀ result taskId, jsonrpcResult env.sendResp = Except.ok result →
        jsonKindIsTask result = true → result.get? "id" = some taskId →
        ∀ k, ∀ hk : k < env.ticks.length,
          env.startTime + timeoutS?.getD cfgT ≤ (env.ticks.get ⟨k, hk⟩).now →
          ticksStillPolling (env.startTime + timeoutS?.getD cfgT) env.ticks k →
          (sendPrompt cfgT prompt messageId pollI timeoutS? env).2
            = some (SendOutcome.timeout taskId (timeoutS?.getD cfgT))) := by
  refine ⟨?_, ?_, ?_⟩
  · intro k hk hge
    unfold sendPrompt
    cases hjr : jsonrpcResult env.sendResp with
    | error f => simp [numTasksGet]
    | ok result =>
      by_cases hkind : jsonKindIsTask result = true
      · simp only [hkind, if_pos]
        cases hid : result.get? "id" with
        | none => simp [numTasksGet]
        | some tid =>
          rw [numTasksGet_cons _ _ (by rfl)]
          rw [numTasksGet_all _
            (fun q hq => (pollLoop_reqs_shape _ _ tid 2 env.ticks q hq).1)]
          exact pollLoop_deadline_stops _ _ tid 2 env.ticks k hk hge
      · simp only [Bool.not_eq_true] at hkind
        simp only [hkind, Bool.false_eq_true, if_false]
        simp [numTasksGet]
  · intro x y h
    unfold sendPrompt at h
    cases hjr : jsonrpcResult env.sendResp with
    | error f =>
      rw [hjr] at h
      simp at h
    | ok result =>
      rw [hjr] at h
      by_cases hkind : jsonKindIsTask result = true
      · simp only [hkind, if_pos] at h
        cases hid : result.get? "id" with
        | none =>
          rw [hid] at h
          simp at h
        | some tid =>
          rw [hid] at h
          have hshape := pollLoop_timeout_shape (env.startTime + timeoutS?.getD cfgT)
            (timeoutS?.getD cfgT) tid 2 env.ticks x y h
          exact ⟨hshape.2, result, rfl, by rw [hid, hshape.1]⟩
      · simp only [Bool.not_eq_true] at hkind
        simp only [hkind, Bool.false_eq_true, if_false] at h
        cases he : extractTextFromMessage result with
        | ok t => simp [outcomeOfExtract, he] at h
        | error m => simp [outcomeOfExtract, he] at h
  · intro result taskId hjr hkind hid k hk hge hpoll
    unfold sendPrompt
    rw [hjr]
    simp only [hkind, if_pos, hid]
    exact pollLoop_timeout_reached _ _ taskId 2 env.ticks k hk hge hpoll

/-- **C8** — across one send-then-poll run the issued request ids are
exactly `1, 2, 3, ...`: strictly increasing from 1, with the initiating
`message/send` at id 1 and every subsequent `tasks/get` poll counting up
from 2. -/
theorem request_ids_increase_from_one (cfgT : Rat) (prompt messageId : String) (pollI : Rat)
    (timeoutS? : Option Rat) (env : SendEnv) :
    (sendPrompt cfgT prompt messageId pollI timeoutS? env).1.map (fun q => q.id)
        = idsFrom 1 (sendPrompt cfgT prompt messageId pollI timeoutS? env).1.length
    ∧ (sendPrompt cfgT prompt messageId pollI timeoutS? env).1.head?.map
        (fun q => (q.method, q.id)) = some ("message/send", 1)
    ∧ ∀ q ∈ (sendPrompt cfgT prompt messageId pollI timeoutS? env).1,
        q.method = "tasks/get" → 2 ≤ q.id := by
  refine ⟨?_, ?_, ?_⟩
  · unfold sendPrompt
    cases jsonrpcResult env.sendResp with
    | error f => rfl
    | ok result =>
      by_cases hkind : jsonKindIsTask result = true
      · simp only [hkind, if_pos]
        cases result.get? "id" with
        | none => rfl
        | some tid =>
          simp only [List.map_cons, List.length_cons, idsFrom]
          rw [pollLoop_ids]
          norm_num
      · simp only [Bool.not_eq_true] at hkind
        simp only [hkind, Bool.false_eq_true, if_false]
        rfl
  · obtain ⟨rest, hr⟩ := sendPrompt_reqs_head cfgT prompt messageId pollI timeoutS? env
    rw [hr]
    rfl
  · intro q hq hmethod
    unfold sendPrompt at hq
    cases hjr : jsonrpcResult env.sendResp with
    | error f =>
      rw [hjr] at hq
      simp at hq
      subst hq
      simp at hmethod
    | ok result =>
      rw [hjr] at hq
      by_cases hkind : jsonKindIsTask result = true
      · simp only [hkind, if_pos] at hq
        cases hid : result.get? "id" with
        | none =>
          rw [hid] at hq
          simp at hq
          subst hq
          simp at hmethod
        | some tid =>
          rw [hid] at hq
          simp at hq
          rcases hq with hq | hq
          · subst hq
            simp at hmethod
          · exact pollLoop_ids_ge _ _ tid 2 env.ticks q hq
      · simp only [Bool.not_eq_true] at hkind
        simp only [hkind, Bool.false_eq_true, if_false] at hq
        simp at hq
        subst hq
        simp at hmethod

/-- If the polling loop (started at id 2) issues a first request, that
request carries id 2. -/
theorem pollLoop_head_id (deadline timeoutS : Rat) (taskId : Json) (ticks : List PollTick) :
    ∀ q, (pollLoop deadline timeoutS taskId 2 ticks).1.head? = some q → q.id = 2 := by
  have hids := pollLoop_ids deadline timeoutS taskId 2 ticks
  intro q hq
  cases hl : (pollLoop deadline timeoutS taskId 2 ticks).1 with
  | nil =>
    rw [hl] at hq
    simp at hq
  | cons p ps =>
    rw [hl] at hq hids
    simp only [List.map_cons, List.length_cons, idsFrom] at hids
    simp only [List.head?_cons, Option.some.injEq] at hq
    subst hq
    exact (List.cons.injEq _ _ _ _ ▸ hids).1

/-- **C10** — request ids are scoped to one `send_prompt` invocation, not
to the client session: any two invocations both issue their `message/send`
with id 1 and restart the polling counter at 2, so the id 1 repeats across
two successive calls on one client instance. -/
theorem request_ids_reset_per_invocation (cfgT1 : Rat) (prompt1 messageId1 : String)
    (pollI1 : Rat) (timeoutS1 : Option Rat) (env1 : SendEnv)
    (cfgT2 : Rat) (prompt2 messageId2 : String)
    (pollI2 : Rat) (timeoutS2 : Option Rat) (env2 : SendEnv) :
    ((sendPrompt cfgT1 prompt1 messageId1 pollI1 timeoutS1 env1).1.map (fun q => q.id)).head?
        = some 1
    ∧ ((sendPrompt cfgT2 prompt2 messageId2 pollI2 timeoutS2 env2).1.map (fun q => q.id)).head?
        = some 1
    ∧ (∀ q, (sendPrompt cfgT1 prompt1 messageId1 pollI1 timeoutS1 env1).1.get? 1 = some q →
        q.id = 2)
    ∧ ∃ i, i ∈ (sendPrompt cfgT1 prompt1 messageId1 pollI1 timeoutS1 env1).1.map (fun q => q.id)
        ∧ i ∈ (sendPrompt cfgT2 prompt2 messageId2 pollI2 timeoutS2 env2).1.map
            (fun q => q.id) := by
  obtain ⟨rest1, hr1⟩ := sendPrompt_reqs_head cfgT1 prompt1 messageId1 pollI1 timeoutS1 env1
  obtain ⟨rest2, hr2⟩ := sendPrompt_reqs_head cfgT2 prompt2 messageId2 pollI2 timeoutS2 env2
  refine ⟨by rw [hr1]; rfl, by rw [hr2]; rfl, ?_, 1, by rw [hr1]; simp, by rw [hr2]; simp⟩
  intro q hq
  unfold sendPrompt at hq
  cases hjr : jsonrpcResult env1.sendResp with
  | error f =>
    rw [hjr] at hq
    simp at hq
  | ok result =>
    rw [hjr] at hq
    by_cases hkind : jsonKindIsTask result = true
    · simp only [hkind, if_pos] at hq
      cases hid : result.get? "id" with
      | none =>
        rw [hid] at hq
        simp at hq
      | some tid =>
        rw [hid] at hq
        have hq0 : (pollLoop (env1.startTime + timeoutS1.getD cfgT1) (timeoutS1.getD cfgT1)
            tid 2 env1.ticks).1.get? 0 = some q := hq
        cases hl : (pollLoop (env1.startTime + timeoutS1.getD cfgT1) (timeoutS1.getD cfgT1)
            tid 2 env1.ticks).1 with
        | nil =>
          rw [hl] at hq0
          simp at hq0
        | cons p ps =>
          rw [hl] at hq0
          refine pollLoop_head_id (env1.startTime + timeoutS1.getD cfgT1)
            (timeoutS1.getD cfgT1) tid env1.ticks q ?_
          rw [hl]
          simpa using hq0
    · simp only [Bool.not_eq_true] at hkind
      simp only [hkind, Bool.false_eq_true, if_false] at hq
      simp at hq
